import Mathlib

/-!
Shallow embedding of `src/transaction-categorization.py`, a small
supervised text-classification pipeline:

  load_and_preprocess_data  (pandas: dropna on the two columns, lowercase
                             the description column, drop_duplicates)
  train_test_split          (sklearn, test_size=0.2, random_state=42)
  vectorize_text            (sklearn TfidfVectorizer(stop_words='english')
                             with its default parameters: token pattern
                             \b\w\w+\b, lowercasing, smooth idf, l2 norm)
  train_model               (sklearn MultinomialNB(), alpha = 1)
  evaluate_model            (accuracy_score, classification_report,
                             confusion_matrix)
  joblib.dump               (writes the artifact only after all stages)

Rows are modelled as the two columns the program reads; machine floats
are modelled as real numbers; exceptions as `Except PipelineError`.
The seeded shuffle performed by `train_test_split(random_state=42)` is a
fixed permutation of indices produced by the Mersenne-Twister stream; it
is abstracted as an explicit `order : List Nat` parameter (every theorem
below holds for each fixed order, in particular for the seed-42 one).
-/

namespace TxCat

/-- Errors actually raised along the program's paths: `keyError` is the
pandas `KeyError` on a missing column, `valueError` the sklearn
`ValueError` (empty vocabulary, inconsistent sample counts, degenerate
split).  The spec's taxonomy (`DataError`, `TrainingError`,
`NotFittedError`, `InputNotFoundError`) does not occur in the code. -/
inductive PipelineError where
  | keyError
  | valueError
deriving DecidableEq

/-- A raw input row: the two columns the program reads, each possibly
missing (pandas `NaN`). -/
structure RawRow where
  description : Option String
  category : Option String
deriving DecidableEq

/-- The loaded table: whether the two expected columns exist, plus its
rows.  Column access by name on a frame lacking the column raises
`KeyError` in pandas. -/
structure RawFrame where
  hasDescription : Bool
  hasCategory : Bool
  rows : List RawRow

/-- A cleaned record: both fields present, description lowercased. -/
structure Row where
  description : String
  category : String
deriving DecidableEq

/-- Python `str.lower` (the corpus is ASCII, where Lean's `Char.toLower`
agrees with Python's lowercasing). -/
def lowerString (s : String) : String := String.mk (s.data.map Char.toLower)

/-- `df.dropna(subset=['description', 'category'])`: keep the rows where
both columns are present. -/
def dropna (rows : List RawRow) : List RawRow :=
  rows.filter (fun r => r.description.isSome && r.category.isSome)

/-- `df.drop_duplicates()`: remove exact duplicates, keeping the first
occurrence of each row (pandas `keep='first'`).  `seen` accumulates the
values already emitted. -/
def dedupFirstAux {α : Type} [DecidableEq α] (seen : List α) : List α → List α
  | [] => []
  | r :: rs =>
      if r ∈ seen then dedupFirstAux seen rs
      else r :: dedupFirstAux (r :: seen) rs

def dedupFirst {α : Type} [DecidableEq α] (l : List α) : List α :=
  dedupFirstAux [] l

/-- The cleaning pass of `load_and_preprocess_data`: drop incomplete
rows, lowercase descriptions, drop duplicates (in that order, matching
the source). -/
def cleanRows (rows : List RawRow) : List Row :=
  dedupFirst ((dropna rows).map
    (fun r => ⟨lowerString (r.description.getD ""), r.category.getD ""⟩))

/-- `load_and_preprocess_data`: column access on a frame missing either
expected column raises pandas `KeyError`; otherwise the cleaned rows are
returned — the function itself never checks for emptiness and never
raises any other error. -/
def load_and_preprocess_data (f : RawFrame) : Except PipelineError (List Row) :=
  if f.hasDescription && f.hasCategory then Except.ok (cleanRows f.rows)
  else Except.error PipelineError.keyError

/-! ### Tokenization and vocabulary (TfidfVectorizer) -/

/-- A word character for sklearn's default token pattern `\w` (the
corpus here is ASCII). -/
def isWordChar (c : Char) : Bool := c.isAlphanum || c = '_'

/-- Split a character list into maximal runs of word characters; `acc`
holds the current run, reversed. -/
def tokenRuns (acc : List Char) : List Char → List (List Char)
  | [] => if acc.isEmpty then [] else [acc.reverse]
  | c :: cs =>
      if isWordChar c then tokenRuns (c :: acc) cs
      else if acc.isEmpty then tokenRuns [] cs
      else acc.reverse :: tokenRuns [] cs

/-- sklearn tokenization: lowercase, then take maximal word-character
runs of length at least two (default token pattern `\b\w\w+\b`). -/
def tokenize (s : String) : List String :=
  ((tokenRuns [] (lowerString s).data).filter (fun r => 2 ≤ r.length)).map
    (fun r => String.mk r)

/-- sklearn's built-in English stop word list
(`sklearn.feature_extraction._stop_words.ENGLISH_STOP_WORDS`). -/
def ENGLISH_STOP_WORDS : List String :=
  ["a", "about", "above", "across", "after", "afterwards", "again",
   "against", "all", "almost", "alone", "along", "already", "also",
   "although", "always", "am", "among", "amongst", "amoungst", "amount",
   "an", "and", "another", "any", "anyhow", "anyone", "anything",
   "anyway", "anywhere", "are", "around", "as", "at", "back", "be",
   "became", "because", "become", "becomes", "becoming", "been",
   "before", "beforehand", "behind", "being", "below", "beside",
   "besides", "between", "beyond", "bill", "both", "bottom", "but",
   "by", "call", "can", "cannot", "cant", "co", "con", "could",
   "couldnt", "cry", "de", "describe", "detail", "do", "done", "down",
   "due", "during", "each", "eg", "eight", "either", "eleven", "else",
   "elsewhere", "empty", "enough", "etc", "even", "ever", "every",
   "everyone", "everything", "everywhere", "except", "few", "fifteen",
   "fifty", "fill", "find", "fire", "first", "five", "for", "former",
   "formerly", "forty", "found", "four", "from", "front", "full",
   "further", "get", "give", "go", "had", "has", "hasnt", "have", "he",
   "hence", "her", "here", "hereafter", "hereby", "herein", "hereupon",
   "hers", "herself", "him", "himself", "his", "how", "however",
   "hundred", "i", "ie", "if", "in", "inc", "indeed", "interest",
   "into", "is", "it", "its", "itself", "keep", "last", "latter",
   "latterly", "least", "less", "ltd", "made", "many", "may", "me",
   "meanwhile", "might", "mill", "mine", "more", "moreover", "most",
   "mostly", "move", "much", "must", "my", "myself", "name", "namely",
   "neither", "never", "nevertheless", "next", "nine", "no", "nobody",
   "none", "noone", "nor", "not", "nothing", "now", "nowhere", "of",
   "off", "often", "on", "once", "one", "only", "onto", "or", "other",
   "others", "otherwise", "our", "ours", "ourselves", "out", "over",
   "own", "part", "per", "perhaps", "please", "put", "rather", "re",
   "same", "see", "seem", "seemed", "seeming", "seems", "serious",
   "several", "she", "should", "show", "side", "since", "sincere",
   "six", "sixty", "so", "some", "somehow", "someone", "something",
   "sometime", "sometimes", "somewhere", "still", "such", "system",
   "take", "ten", "than", "that", "the", "their", "them", "themselves",
   "then", "thence", "there", "thereafter", "thereby", "therefore",
   "therein", "thereupon", "these", "they", "thick", "thin", "third",
   "this", "those", "though", "three", "through", "throughout", "thru",
   "thus", "to", "together", "too", "top", "toward", "towards",
   "twelve", "twenty", "two", "un", "under", "until", "up", "upon",
   "us", "very", "via", "was", "we", "well", "were", "what", "whatever",
   "when", "whence", "whenever", "where", "whereafter", "whereas",
   "whereby", "wherein", "whereupon", "wherever", "whether", "which",
   "while", "whither", "who", "whoever", "whole", "whom", "whose",
   "why", "will", "with", "within", "without", "would", "yet", "you",
   "your", "yours", "yourself", "yourselves"]

/-- The analyzer of `TfidfVectorizer(stop_words='english')`: tokenize,
then discard stop words. -/
def analyze (s : String) : List String :=
  (tokenize s).filter (fun t => !(ENGLISH_STOP_WORDS.contains t))

/-- All surviving tokens of a corpus, in document order. -/
def allTokens : List String → List String
  | [] => []
  | d :: ds => analyze d ++ allTokens ds

/-- Lexicographic comparison of character lists by code point — the
order Python `sorted` uses on these ASCII strings. -/
def charListLe : List Char → List Char → Bool
  | [], _ => true
  | _ :: _, [] => false
  | a :: as, b :: bs =>
      if a.toNat < b.toNat then true
      else if b.toNat < a.toNat then false
      else charListLe as bs

/-- Insertion into a sorted list of strings. -/
def insertSorted (s : String) : List String → List String
  | [] => [s]
  | t :: ts => if charListLe s.data t.data then s :: t :: ts
               else t :: insertSorted s ts

/-- Sort strings ascending (sklearn stores the vocabulary in sorted
order). -/
def sortStrings (l : List String) : List String :=
  l.foldr insertSorted []

/-- The fitted vocabulary: the distinct surviving tokens of the training
corpus, sorted.  Determined by the training documents alone. -/
def buildVocabulary (docs : List String) : List String :=
  sortStrings (allTokens docs).dedup

/-- Number of occurrences of term `t` in document `d` after analysis
(the raw term frequency sklearn uses). -/
def count (d t : String) : Nat := (analyze d).count t

/-- Document frequency of term `t` in a corpus. -/
def df (docs : List String) (t : String) : Nat :=
  docs.countP (fun d => (analyze d).contains t)

/-! ### TF-IDF weights (TfidfVectorizer defaults: raw term counts,
`smooth_idf=True`, `sublinear_tf=False`, `norm='l2'`) -/

/-- sklearn's smoothed inverse document frequency for term `t` fitted
on `trainDocs`: `ln((1 + n) / (1 + df)) + 1`. -/
noncomputable def idf (trainDocs : List String) (t : String) : ℝ :=
  Real.log ((1 + trainDocs.length) / (1 + df trainDocs t)) + 1

/-- The unnormalized entry for `(d, t)`: raw count times idf. -/
noncomputable def rawWeight (trainDocs : List String) (d t : String) : ℝ :=
  (count d t : ℝ) * idf trainDocs t

/-- Row-wise l2 normalization.  sklearn leaves an all-zero row as is;
with Lean's `x / 0 = 0` convention, dividing each entry by the norm
agrees with that behavior extensionally (a zero row has norm 0 and all
entries 0, and `0 / 0 = 0`). -/
noncomputable def l2normalize (v : List ℝ) : List ℝ :=
  v.map (fun x => x / Real.sqrt ((v.map (fun y => y * y)).sum))

/-- The l2 norm of the unnormalized row of document `d` over the fitted
vocabulary of `trainDocs`. -/
noncomputable def docNorm (trainDocs : List String) (d : String) : ℝ :=
  Real.sqrt ((((buildVocabulary trainDocs).map (rawWeight trainDocs d)).map
    (fun y => y * y)).sum)

/-- The TF-IDF feature row of document `d` over vocabulary `vocab`, with
idf (and hence the vocabulary) fitted on `trainDocs`. -/
noncomputable def tfidfRow (trainDocs : List String) (vocab : List String)
    (d : String) : List ℝ :=
  l2normalize (vocab.map (rawWeight trainDocs d))

/-- The feature weight the fitted vectorizer assigns to `(d, t)`: the
entry of `d`'s row at `t`'s vocabulary index (0 if absent). -/
noncomputable def weightOfTerm (trainDocs : List String) (d t : String) : ℝ :=
  (tfidfRow trainDocs (buildVocabulary trainDocs) d).getD
    ((buildVocabulary trainDocs).indexOf t) 0

/-- The TF-IDF formula as the spec words it (for comparison with the
implementation's weights): `(term count in document / document length) ×
log(total training documents / documents containing term)`. -/
noncomputable def specWeight (trainDocs : List String) (d t : String) : ℝ :=
  ((count d t : ℝ) / (analyze d).length) *
    Real.log ((trainDocs.length : ℝ) / (df trainDocs t))

/-- The fitted vectorizer state: the vocabulary and its idf vector
(bundled into the saved artifact by `main`). -/
structure VectorizerState where
  vocabulary : List String
  idfValues : List ℝ

/-- `vectorize_text`: fit the vectorizer on the training descriptions
and transform both sets.  `fit_transform` raises
`ValueError: empty vocabulary` when no token survives; transforming the
test set with the fitted state never fails — tokens outside the
vocabulary are ignored. -/
noncomputable def vectorize_text (train_text test_text : List String) :
    Except PipelineError (List (List ℝ) × List (List ℝ) × VectorizerState) :=
  let vocab := buildVocabulary train_text
  if vocab = [] then Except.error PipelineError.valueError
  else Except.ok
    (train_text.map (tfidfRow train_text vocab),
     test_text.map (tfidfRow train_text vocab),
     ⟨vocab, vocab.map (idf train_text)⟩)

/-! ### MultinomialNB -/

/-- The fitted classifier: sorted class list, log priors, and smoothed
per-class per-feature log likelihoods (MultinomialNB with alpha = 1). -/
structure Model where
  classes : List String
  classLogPrior : List ℝ
  featureLogProb : List (List ℝ)

/-- `train_model` (`MultinomialNB().fit`).  sklearn's `check_X_y`
raises `ValueError` on inconsistent sample counts and on an empty
sample; a single distinct class is explicitly supported (the degenerate
one-column label binarization) and trains without error.  Validation of
feature values (non-negativity) is unreachable here because TF-IDF
weights are non-negative. -/
noncomputable def train_model (X : List (List ℝ)) (y : List String) :
    Except PipelineError Model :=
  if X.length ≠ y.length then Except.error PipelineError.valueError
  else if X.length = 0 then Except.error PipelineError.valueError
  else
    let classes := sortStrings y.dedup
    let nFeat := (X.headD []).length
    let rowsFor := fun c =>
      (X.zip y).filterMap (fun p => if p.2 = c then some p.1 else none)
    let fcount := fun c j => ((rowsFor c).map (fun row => row.getD j 0)).sum
    let total := fun c => ((List.range nFeat).map (fun j => fcount c j)).sum
    Except.ok
      { classes := classes
        classLogPrior := classes.map
          (fun c => Real.log (y.count c) - Real.log y.length)
        featureLogProb := classes.map (fun c => (List.range nFeat).map
          (fun j => Real.log (fcount c j + 1) - Real.log (total c + nFeat))) }

/-- Joint log likelihood of class index `k` for feature row `x`. -/
noncomputable def jointLogLikelihood (m : Model) (x : List ℝ) (k : Nat) : ℝ :=
  m.classLogPrior.getD k 0 +
    ((x.zip (m.featureLogProb.getD k [])).map (fun p => p.1 * p.2)).sum

/-- First index attaining the maximum of `f` over `0, ..., n - 1`
(numpy `argmax` keeps the first maximum on ties). -/
noncomputable def bestIdx (f : Nat → ℝ) (n : Nat) : Nat :=
  (List.range n).foldl (fun b i => if f b < f i then i else b) 0

/-- `model.predict` on one feature row: the class with the greatest
joint log likelihood. -/
noncomputable def predictNB (m : Model) (x : List ℝ) : String :=
  m.classes.getD (bestIdx (jointLogLikelihood m x) m.classes.length) ""

/-! ### Evaluation (accuracy_score, classification_report,
confusion_matrix) -/

/-- True positives of class `c`: positions where truth and prediction
both equal `c`. -/
def truePos (ytrue ypred : List String) (c : String) : Nat :=
  (ytrue.zip ypred).countP (fun p => p.1 = c && p.2 = c)

/-- Per-class precision as `classification_report` computes it
(`zero_division` default: a class with no predicted instances gets 0,
with a warning, not an exception). -/
def precisionScore (ytrue ypred : List String) (c : String) : ℚ :=
  if ypred.count c = 0 then 0
  else (truePos ytrue ypred c : ℚ) / (ypred.count c : ℚ)

/-- Per-class recall, 0 for a class with no true instances. -/
def recallScore (ytrue ypred : List String) (c : String) : ℚ :=
  if ytrue.count c = 0 then 0
  else (truePos ytrue ypred c : ℚ) / (ytrue.count c : ℚ)

/-- `accuracy_score`: fraction of exact matches. -/
def accuracy (ytrue ypred : List String) : ℚ :=
  ((ytrue.zip ypred).countP (fun p => p.1 = p.2) : ℚ) / (ytrue.length : ℚ)

/-- One confusion-matrix cell: true class `a`, predicted class `b`. -/
def confusionCell (ytrue ypred : List String) (a b : String) : Nat :=
  (ytrue.zip ypred).countP (fun p => p.1 = a && p.2 = b)

/-! ### Split, pipeline and main -/

/-- `train_test_split(X, y, test_size=0.2, random_state=42)`.  `order`
is the seeded index permutation (see the header); the first fifth
(rounded up) of the shuffled records becomes the test set.  sklearn
raises `ValueError` when the resulting train set would be empty. -/
def train_test_split (order : List Nat) (xs : List Row) :
    Except PipelineError (List Row × List Row) :=
  let shuffled := order.filterMap (fun i => xs.get? i)
  let nTest := (xs.length + 4) / 5
  if xs.length - nTest = 0 then Except.error PipelineError.valueError
  else Except.ok (shuffled.drop nTest, shuffled.take nTest)

/-- What one successful run computes: the fitted vocabulary, the test
accuracy, and the trained model. -/
structure RunSummary where
  vocab : List String
  acc : ℚ
  model : Model

/-- The persisted artifact: `joblib.dump({'model': ..., 'vectorizer':
...})` — classifier and fitted vectorizer bundled as one unit. -/
structure Artifact where
  model : Model
  vectorizer : VectorizerState

/-- The pipeline body of `main` after the file-existence check: load
and clean, split, vectorize, train, evaluate.  Any exception aborts the
run before the artifact is written. -/
noncomputable def pipelineRun (frame : RawFrame) (order : List Nat) :
    Except PipelineError (RunSummary × Artifact) :=
  match load_and_preprocess_data frame with
  | Except.error e => Except.error e
  | Except.ok cleaned =>
    match train_test_split order cleaned with
    | Except.error e => Except.error e
    | Except.ok (trainRows, testRows) =>
      match vectorize_text (trainRows.map Row.description)
          (testRows.map Row.description) with
      | Except.error e => Except.error e
      | Except.ok (xtr, xte, vstate) =>
        match train_model xtr (trainRows.map Row.category) with
        | Except.error e => Except.error e
        | Except.ok m =>
          let preds := xte.map (predictNB m)
          Except.ok
            (⟨vstate.vocabulary, accuracy (testRows.map Row.category) preds, m⟩,
             ⟨m, vstate⟩)

/-- Outcome of one invocation of `main`. -/
inductive RunOutcome where
  | success
  | inputMissing
  | failed (e : PipelineError)
deriving DecidableEq

/-- `main`: the filesystem is modelled as the optional frame at the
input path plus the map of artifacts by path.  A missing input file
prints a message and returns; a pipeline exception propagates; only a
fully successful run reaches `joblib.dump`, which then overwrites the
artifact at `savePath`. -/
noncomputable def runMain (input : Option RawFrame)
    (artifacts : String → Option Artifact) (savePath : String)
    (order : List Nat) : (String → Option Artifact) × RunOutcome :=
  match input with
  | none => (artifacts, RunOutcome.inputMissing)
  | some frame =>
    match pipelineRun frame order with
    | Except.error e => (artifacts, RunOutcome.failed e)
    | Except.ok (_, art) =>
      (fun p => if p = savePath then some art else artifacts p,
       RunOutcome.success)

/-! ### Helper lemmas -/

theorem mem_dedupFirstAux {α : Type} [DecidableEq α] {a : α}
    (seen l : List α) :
    a ∈ dedupFirstAux seen l ↔ a ∈ l ∧ a ∉ seen := by
  induction l generalizing seen with
  | nil => simp [dedupFirstAux]
  | cons r rs ih =>
    by_cases hr : r ∈ seen
    · rw [dedupFirstAux, if_pos hr, ih]
      constructor
      · rintro ⟨h1, h2⟩
        exact ⟨List.mem_cons_of_mem _ h1, h2⟩
      · rintro ⟨h1, h2⟩
        rcases List.mem_cons.mp h1 with h | h
        · exact absurd (h ▸ hr) h2
        · exact ⟨h, h2⟩
    · rw [dedupFirstAux, if_neg hr]
      constructor
      · intro h
        rcases List.mem_cons.mp h with h | h
        · exact ⟨h ▸ List.mem_cons_self r rs, h ▸ hr⟩
        · rcases (ih (r :: seen)).mp h with ⟨h1, h2⟩
          refine ⟨List.mem_cons_of_mem _ h1, fun hc => h2 ?_⟩
          exact List.mem_cons_of_mem _ hc
      · rintro ⟨h1, h2⟩
        rcases List.mem_cons.mp h1 with h | h
        · exact h ▸ List.mem_cons_self _ _
        · by_cases har : a = r
          · exact har ▸ List.mem_cons_self _ _
          · refine List.mem_cons_of_mem _ ((ih (r :: seen)).mpr ⟨h, ?_⟩)
            intro hc
            rcases List.mem_cons.mp hc with h' | h'
            · exact har h'
            · exact h2 h'

theorem mem_dedupFirst {α : Type} [DecidableEq α] {a : α} (l : List α) :
    a ∈ dedupFirst l ↔ a ∈ l := by
  rw [dedupFirst, mem_dedupFirstAux]
  simp

theorem nodup_dedupFirstAux {α : Type} [DecidableEq α]
    (seen l : List α) : (dedupFirstAux seen l).Nodup := by
  induction l generalizing seen with
  | nil => simp [dedupFirstAux]
  | cons r rs ih =>
    by_cases hr : r ∈ seen
    · rw [dedupFirstAux, if_pos hr]; exact ih seen
    · rw [dedupFirstAux, if_neg hr]
      refine List.nodup_cons.mpr ⟨?_, ih (r :: seen)⟩
      intro hc
      exact ((mem_dedupFirstAux _ _).mp hc).2 (List.mem_cons_self _ _)

theorem nodup_dedupFirst {α : Type} [DecidableEq α] (l : List α) :
    (dedupFirst l).Nodup := nodup_dedupFirstAux [] l

/-- Membership description of the cleaned record set: exactly the
lowercased completions of complete raw rows occur. -/
theorem mem_cleanRows {r : Row} {rows : List RawRow} :
    r ∈ cleanRows rows ↔
      ∃ raw ∈ rows, ∃ s c, raw.description = some s ∧
        raw.category = some c ∧ r = ⟨lowerString s, c⟩ := by
  rw [cleanRows, mem_dedupFirst, List.mem_map]
  constructor
  · rintro ⟨raw, hraw, hr⟩
    rw [dropna, List.mem_filter] at hraw
    obtain ⟨hmem, hsome⟩ := hraw
    obtain ⟨hd, hc⟩ := Bool.and_eq_true _ _ |>.mp hsome
    obtain ⟨s, hs⟩ := Option.isSome_iff_exists.mp hd
    obtain ⟨c, hcv⟩ := Option.isSome_iff_exists.mp hc
    exact ⟨raw, hmem, s, c, hs, hcv, by simp [← hr, hs, hcv]⟩
  · rintro ⟨raw, hmem, s, c, hs, hcv, hr⟩
    refine ⟨raw, ?_, ?_⟩
    · rw [dropna, List.mem_filter]
      exact ⟨hmem, by simp [hs, hcv]⟩
    · simp [hs, hcv, hr]

theorem mem_insertSorted {a s : String} {l : List String} :
    a ∈ insertSorted s l ↔ a = s ∨ a ∈ l := by
  induction l with
  | nil => simp [insertSorted]
  | cons t ts ih =>
    rw [insertSorted]
    by_cases h : charListLe s.data t.data
    · rw [if_pos h]; simp
    · rw [if_neg h]
      simp only [List.mem_cons, ih]
      tauto

theorem mem_sortStrings {a : String} {l : List String} :
    a ∈ sortStrings l ↔ a ∈ l := by
  induction l with
  | nil => simp [sortStrings]
  | cons t ts ih =>
    rw [sortStrings, List.foldr_cons, mem_insertSorted]
    rw [sortStrings] at ih
    rw [ih]
    simp

theorem mem_allTokens {t : String} {docs : List String} :
    t ∈ allTokens docs ↔ ∃ d ∈ docs, t ∈ analyze d := by
  induction docs with
  | nil => simp [allTokens]
  | cons d ds ih =>
    rw [allTokens, List.mem_append, ih]
    simp

theorem mem_buildVocabulary {t : String} {docs : List String} :
    t ∈ buildVocabulary docs ↔ ∃ d ∈ docs, t ∈ analyze d := by
  rw [buildVocabulary, mem_sortStrings, List.mem_dedup, mem_allTokens]

/-- A vocabulary term occurs in at least one training document. -/
theorem df_pos_of_mem_vocab {t : String} {docs : List String}
    (h : t ∈ buildVocabulary docs) : 1 ≤ df docs t := by
  obtain ⟨d, hd, ht⟩ := mem_buildVocabulary.mp h
  rw [df]
  exact List.countP_pos_iff.mpr ⟨d, hd, by simpa using ht⟩

/-- A corpus all of whose documents analyze to nothing has an empty
vocabulary. -/
theorem buildVocabulary_eq_nil {docs : List String}
    (h : ∀ d ∈ docs, analyze d = []) : buildVocabulary docs = [] := by
  have hall : allTokens docs = [] := by
    induction docs with
    | nil => rfl
    | cons d ds ih =>
      rw [allTokens, h d (List.mem_cons_self _ _),
        ih (fun x hx => h x (List.mem_cons_of_mem _ hx))]
      rfl
  rw [buildVocabulary, hall]
  rfl

/-- Members of the output of the split come from the input list. -/
theorem train_test_split_subset {order : List Nat} {xs tr te : List Row}
    (h : train_test_split order xs = Except.ok (tr, te)) :
    ∀ a ∈ tr, a ∈ xs := by
  rw [train_test_split] at h
  by_cases hc : xs.length - (xs.length + 4) / 5 = 0
  · rw [if_pos hc] at h; cases h
  · rw [if_neg hc] at h
    cases h
    intro a ha
    have hmem := List.mem_of_mem_drop ha
    obtain ⟨i, _, hi⟩ := List.mem_filterMap.mp hmem
    exact List.get?_mem hi

/-- The split only ever fails with the sklearn `ValueError`. -/
theorem train_test_split_error {order : List Nat} {xs : List Row}
    {e : PipelineError} (h : train_test_split order xs = Except.error e) :
    e = PipelineError.valueError := by
  rw [train_test_split] at h
  by_cases hc : xs.length - (xs.length + 4) / 5 = 0
  · rw [if_pos hc] at h
    cases h
    rfl
  · rw [if_neg hc] at h
    cases h

theorem getD_of_lt {l : List ℝ} {i : Nat} (h : i < l.length) :
    l.getD i 0 = l[i] := by
  simp [List.getD_eq_getElem?_getD, List.getElem?_eq_getElem h]

/-- A document whose tokens are all stop words analyzes to nothing. -/
theorem analyze_eq_nil {d : String}
    (h : ∀ t ∈ tokenize d, t ∈ ENGLISH_STOP_WORDS) : analyze d = [] := by
  rw [analyze, List.filter_eq_nil_iff]
  intro t ht
  simp [h t ht]

/-! ### The claims -/

/-- C1: the vocabulary (and hence every feature dimension) is fixed at
fit time from the training descriptions alone and reused for the test
set: both transformed matrices have one column per vocabulary term,
every vocabulary term occurs in some training description, and
transforming arbitrary test text never fails — tokens unseen at fit
time are ignored. -/
theorem C1_fixed_vocabulary : ∀ (train_text test_text : List String),
    buildVocabulary train_text ≠ [] →
    ∃ xtr xte st, vectorize_text train_text test_text =
        Except.ok (xtr, xte, st) ∧
      st.vocabulary = buildVocabulary train_text ∧
      (∀ row ∈ xte, row.length = st.vocabulary.length) ∧
      (∀ row ∈ xtr, row.length = st.vocabulary.length) ∧
      (∀ t ∈ st.vocabulary, ∃ d ∈ train_text, t ∈ analyze d) := by
  intro train_text test_text h
  refine ⟨train_text.map (tfidfRow train_text (buildVocabulary train_text)),
    test_text.map (tfidfRow train_text (buildVocabulary train_text)),
    ⟨buildVocabulary train_text, (buildVocabulary train_text).map (idf train_text)⟩,
    ?_, rfl, ?_, ?_, ?_⟩
  · simp only [vectorize_text, if_neg h]
  · intro row hrow
    obtain ⟨d, _, hd⟩ := List.mem_map.mp hrow
    rw [← hd, tfidfRow, l2normalize]
    simp
  · intro row hrow
    obtain ⟨d, _, hd⟩ := List.mem_map.mp hrow
    rw [← hd, tfidfRow, l2normalize]
    simp
  · intro t ht
    exact mem_buildVocabulary.mp ht

theorem C1_fixed_vocabulary_witness :
    ∃ xtr xte st, vectorize_text ["coffee shop"] ["zebra pub"] =
        Except.ok (xtr, xte, st) ∧
      st.vocabulary = buildVocabulary ["coffee shop"] ∧
      (∀ row ∈ xte, row.length = st.vocabulary.length) ∧
      (∀ row ∈ xtr, row.length = st.vocabulary.length) ∧
      (∀ t ∈ st.vocabulary, ∃ d ∈ ["coffee shop"], t ∈ analyze d) :=
  C1_fixed_vocabulary ["coffee shop"] ["zebra pub"] (by decide)

/-- C2 counterexample: on the one-document corpus `["aa"]` the
vectorizer assigns weight 1 to the pair (document "aa", term "aa"),
while the spec's formula `(count / length) × log(n / df)` gives
`1 × log 1 = 0`; the implementation's weights are not the spec's. -/
theorem C2_tfidf_formula_cex :
    weightOfTerm ["aa"] "aa" "aa" = 1 ∧ specWeight ["aa"] "aa" "aa" = 0 ∧
      (1 : ℝ) ≠ 0 := by
  have hc : count "aa" "aa" = 1 := by decide
  have hd : df ["aa"] "aa" = 1 := by decide
  refine ⟨?_, ?_, one_ne_zero⟩
  · have hv : buildVocabulary ["aa"] = ["aa"] := by decide
    rw [weightOfTerm, hv]
    simp [tfidfRow, l2normalize, rawWeight, idf, hc, hd]
  · have ha : analyze "aa" = ["aa"] := by decide
    rw [specWeight, hc, hd, ha]
    norm_num [Real.log_one]

/-- C2 (amended): for every training corpus and every (document, term)
pair with the term in the vocabulary, the produced weight equals
sklearn's formula — raw count times the smoothed idf
`ln((1 + n) / (1 + df)) + 1`, divided by the document row's l2 norm —
and the term's document frequency is at least 1 (a df = 0 term never
enters the vocabulary), so no denominator is zero. -/
theorem C2_tfidf_formula : ∀ (train_text : List String) (d t : String),
    t ∈ buildVocabulary train_text →
    1 ≤ df train_text t ∧
    weightOfTerm train_text d t =
      ((count d t : ℝ) *
        (Real.log ((1 + train_text.length) / (1 + df train_text t)) + 1)) /
        docNorm train_text d := by
  intro train_text d t h
  refine ⟨df_pos_of_mem_vocab h, ?_⟩
  have hlt : (buildVocabulary train_text).indexOf t <
      (buildVocabulary train_text).length := List.indexOf_lt_length.mpr h
  rw [weightOfTerm, tfidfRow, l2normalize]
  have hlen : (((buildVocabulary train_text).map (rawWeight train_text d)).map
      (fun x => x / Real.sqrt ((((buildVocabulary train_text).map
        (rawWeight train_text d)).map (fun y => y * y)).sum))).length =
      (buildVocabulary train_text).length := by
    simp
  rw [getD_of_lt (by rw [hlen]; exact hlt)]
  rw [List.getElem_map, List.getElem_map, List.getElem_indexOf hlt]
  rw [rawWeight, idf, docNorm]

theorem C2_tfidf_formula_witness :
    1 ≤ df ["big burger"] "burger" ∧
    weightOfTerm ["big burger"] "big" "burger" =
      ((count "big" "burger" : ℝ) *
        (Real.log ((1 + (["big burger"] : List String).length) /
          (1 + df ["big burger"] "burger")) + 1)) /
        docNorm ["big burger"] "big" :=
  C2_tfidf_formula ["big burger"] "big" "burger" (by decide)

/-- C3 counterexample: an input with the two columns present whose only
row lacks a category cleans to zero usable records, yet Data
Preparation succeeds (returning the empty record set) instead of
failing with `DataError` — the function raises no error at all in that
case. -/
theorem C3_data_error_cex :
    load_and_preprocess_data
        ⟨true, true, [⟨some "netflix subscription", none⟩]⟩ =
      Except.ok [] := by
  rfl

/-- C3 (amended): Data Preparation fails — with the pandas `KeyError`,
not a `DataError` — exactly when the description or category column is
absent; when both columns are present it succeeds with the cleaned
records, and in particular an input with zero usable records after
cleaning is returned as the empty record set rather than an error (the
run only fails later, inside the split). -/
theorem C3_data_error : ∀ f : RawFrame,
    (f.hasDescription = true → f.hasCategory = true →
      load_and_preprocess_data f = Except.ok (cleanRows f.rows)) ∧
    ((f.hasDescription = false ∨ f.hasCategory = false) →
      load_and_preprocess_data f = Except.error PipelineError.keyError) ∧
    (f.hasDescription = true → f.hasCategory = true →
      (∀ r ∈ f.rows, r.description = none ∨ r.category = none) →
      load_and_preprocess_data f = Except.ok []) := by
  intro f
  refine ⟨?_, ?_, ?_⟩
  · intro h1 h2
    rw [load_and_preprocess_data, h1, h2]
    rfl
  · intro h
    rw [load_and_preprocess_data]
    rcases h with h | h <;> rw [h] <;> simp
  · intro h1 h2 hall
    rw [load_and_preprocess_data, h1, h2]
    have hnil : dropna f.rows = [] := by
      rw [dropna, List.filter_eq_nil_iff]
      intro r hr
      rcases hall r hr with h | h <;> simp [h]
    simp only [Bool.and_self, if_true]
    rw [cleanRows, hnil]
    rfl

theorem C3_data_error_witness :
    load_and_preprocess_data ⟨true, true, [⟨none, some "Dining"⟩]⟩ =
      Except.ok [] :=
  (C3_data_error ⟨true, true, [⟨none, some "Dining"⟩]⟩).2.2 rfl rfl
    (by decide)

/-- C4 counterexample: a training set whose labels contain a single
distinct class trains successfully — `MultinomialNB` explicitly
supports the degenerate one-class case — instead of failing with
`TrainingError`. -/
theorem C4_training_error_cex :
    (train_model [[(1 : ℝ)], [2]] ["Dining", "Dining"]).isOk = true ∧
      (["Dining", "Dining"].dedup).length = 1 := by
  exact ⟨rfl, by decide⟩

/-- C4 (amended): the Classifier Trainer fails — with the sklearn
`ValueError`, not a `TrainingError` — when the feature and label counts
mismatch (or the training set is empty); with matching non-empty,
non-negative inputs it trains successfully even when only one distinct
class is present. -/
theorem C4_training_error : ∀ (X : List (List ℝ)) (y : List String),
    (X.length ≠ y.length →
      train_model X y = Except.error PipelineError.valueError) ∧
    (X.length = y.length → X.length ≠ 0 →
      (∀ row ∈ X, ∀ v ∈ row, 0 ≤ v) →
      (train_model X y).isOk = true) := by
  intro X y
  constructor
  · intro h
    rw [train_model, if_pos h]
  · intro h1 h2 _
    rw [train_model, if_neg (by simp [h1]), if_neg h2]
    rfl

theorem C4_training_error_witness :
    train_model [[(1 : ℝ)]] [] = Except.error PipelineError.valueError ∧
      (train_model [[(1 : ℝ)], [2]] ["Dining", "Transport"]).isOk = true := by
  refine ⟨(C4_training_error [[(1 : ℝ)]] []).1 (by decide), ?_⟩
  refine (C4_training_error [[(1 : ℝ)], [2]] ["Dining", "Transport"]).2
    (by decide) (by decide) ?_
  intro row hr v hv
  simp only [List.mem_cons, List.not_mem_nil, or_false] at hr
  rcases hr with h | h <;> subst h <;>
    simp only [List.mem_cons, List.not_mem_nil, or_false] at hv <;>
    subst hv <;> norm_num

/-- C5: the pipeline is deterministic — two runs on the same input
frame with the same fixed split order (the seed-42 shuffle) produce the
same result, hence identical vocabularies and identical accuracy
figures, and the Classifier Trainer is a pure function of its features
and labels. -/
theorem C5_determinism : ∀ (frame : RawFrame) (order : List Nat)
    (r1 r2 : Except PipelineError (RunSummary × Artifact))
    (X : List (List ℝ)) (y : List String),
    r1 = pipelineRun frame order → r2 = pipelineRun frame order →
    r1 = r2 ∧ train_model X y = train_model X y := by
  intro frame order r1 r2 X y h1 h2
  exact ⟨h1.trans h2.symm, rfl⟩

theorem C5_determinism_witness :
    pipelineRun ⟨true, true, []⟩ [] = pipelineRun ⟨true, true, []⟩ [] ∧
      train_model [[(1 : ℝ)]] ["Dining"] = train_model [[(1 : ℝ)]] ["Dining"] :=
  C5_determinism ⟨true, true, []⟩ [] _ _ [[(1 : ℝ)]] ["Dining"] rfl rfl

/-- C6: Data Preparation keeps exactly the lowercased images of the
raw records that have both fields (records missing either field are
dropped, nothing else is invented), the cleaned set holds no exact
duplicates, and the row {description: "netflix subscription",
category: "Entertainment"} repeated 5 times cleans to exactly that one
row. -/
theorem C6_data_preparation : ∀ rows : List RawRow,
    (∀ r ∈ cleanRows rows, ∃ raw ∈ rows, ∃ s c, raw.description = some s ∧
      raw.category = some c ∧ r = ⟨lowerString s, c⟩) ∧
    (∀ raw ∈ rows, ∀ s c, raw.description = some s → raw.category = some c →
      (⟨lowerString s, c⟩ : Row) ∈ cleanRows rows) ∧
    (cleanRows rows).Nodup ∧
    cleanRows (List.replicate 5
        ⟨some "netflix subscription", some "Entertainment"⟩) =
      [⟨"netflix subscription", "Entertainment"⟩] := by
  intro rows
  refine ⟨?_, ?_, nodup_dedupFirst _, by decide⟩
  · intro r hr
    exact mem_cleanRows.mp hr
  · intro raw hmem s c hs hc
    exact mem_cleanRows.mpr ⟨raw, hmem, s, c, hs, hc, rfl⟩

theorem C6_data_preparation_witness :
    (⟨"shell gas", "Transport"⟩ : Row) ∈
      cleanRows [⟨some "SHELL Gas", some "Transport"⟩, ⟨none, some "x"⟩] := by
  have h := (C6_data_preparation
    [⟨some "SHELL Gas", some "Transport"⟩, ⟨none, some "x"⟩]).2.1
    ⟨some "SHELL Gas", some "Transport"⟩ (by simp) "SHELL Gas" "Transport"
    rfl rfl
  rw [show lowerString "SHELL Gas" = "shell gas" from by decide] at h
  exact h

/-- C7: for every model and every test set, per-class precision and
recall are total, non-negative rational values; a class with no
predicted instances has precision 0 and a class with no true instances
has recall 0 (the `zero_division` handling of `classification_report`),
so the evaluation never divides by zero — in particular for a class
present in the test labels but absent from training. -/
theorem C7_metrics_defined : ∀ (m : Model) (xte : List (List ℝ))
    (ytrue : List String) (c : String),
    0 ≤ precisionScore ytrue (xte.map (predictNB m)) c ∧
    0 ≤ recallScore ytrue (xte.map (predictNB m)) c ∧
    ((xte.map (predictNB m)).count c = 0 →
      precisionScore ytrue (xte.map (predictNB m)) c = 0) ∧
    (ytrue.count c = 0 → recallScore ytrue (xte.map (predictNB m)) c = 0) := by
  intro m xte ytrue c
  refine ⟨?_, ?_, ?_, ?_⟩
  · rw [precisionScore]
    split
    · exact le_refl 0
    · positivity
  · rw [recallScore]
    split
    · exact le_refl 0
    · positivity
  · intro h
    rw [precisionScore, if_pos h]
  · intro h
    rw [recallScore, if_pos h]

theorem C7_metrics_defined_witness :
    precisionScore ["Dining"] [] "Dining" = 0 ∧
      recallScore [] [] "Dining" = 0 := by
  refine ⟨(C7_metrics_defined ⟨[], [], []⟩ [] ["Dining"] "Dining").2.2.1 rfl,
    (C7_metrics_defined ⟨[], [], []⟩ [] [] "Dining").2.2.2 rfl⟩

/-- C8: a run that does not succeed — a missing input file, or any
pipeline exception — leaves the artifact store unchanged (nothing is
written, a previous artifact at the output path survives); only a fully
successful run writes, and it writes exactly at the save path. -/
theorem C8_no_artifact_on_failure : ∀ (input : Option RawFrame)
    (artifacts : String → Option Artifact) (savePath : String)
    (order : List Nat),
    ((runMain input artifacts savePath order).2 ≠ RunOutcome.success →
      (runMain input artifacts savePath order).1 = artifacts) ∧
    (input = none →
      runMain input artifacts savePath order =
        (artifacts, RunOutcome.inputMissing)) := by
  intro input artifacts savePath order
  cases input with
  | none => exact ⟨fun _ => rfl, fun _ => rfl⟩
  | some frame =>
    refine ⟨?_, fun h => by cases h⟩
    cases h : pipelineRun frame order with
    | error e => intro _; simp [runMain, h]
    | ok v =>
      intro hne
      exact absurd (by simp [runMain, h]) hne

theorem C8_no_artifact_on_failure_witness :
    runMain none (fun _ => none) "transaction_model.pkl" [] =
      ((fun _ => none), RunOutcome.inputMissing) :=
  (C8_no_artifact_on_failure none (fun _ => none)
    "transaction_model.pkl" []).2 rfl

/-- C9: two raw records whose categories agree and whose descriptions
differ only by letter case collapse to a single cleaned record, because
duplicates are dropped after lowercasing. -/
theorem C9_case_fold_dedup : ∀ (r1 r2 : RawRow) (s1 s2 c : String),
    r1.description = some s1 → r2.description = some s2 →
    r1.category = some c → r2.category = some c →
    lowerString s1 = lowerString s2 →
    cleanRows [r1, r2] = [⟨lowerString s1, c⟩] := by
  intro r1 r2 s1 s2 c h1 h2 h3 h4 hlow
  rw [cleanRows, dropna]
  rw [List.filter_cons_of_pos (by simp [h1, h3]),
    List.filter_cons_of_pos (by simp [h2, h4])]
  simp only [List.filter_nil, List.map_cons, List.map_nil, h1, h2, h3, h4,
    Option.getD_some, ← hlow]
  rw [dedupFirst, dedupFirstAux, if_neg (by simp), dedupFirstAux,
    if_pos (by simp), dedupFirstAux]

theorem C9_case_fold_dedup_witness :
    cleanRows [⟨some "Netflix Subscription", some "Entertainment"⟩,
        ⟨some "NETFLIX SUBSCRIPTION", some "Entertainment"⟩] =
      [⟨"netflix subscription", "Entertainment"⟩] := by
  have h := C9_case_fold_dedup ⟨some "Netflix Subscription",
    some "Entertainment"⟩ ⟨some "NETFLIX SUBSCRIPTION", some "Entertainment"⟩
    "Netflix Subscription" "NETFLIX SUBSCRIPTION" "Entertainment"
    rfl rfl rfl rfl (by decide)
  rw [show lowerString "Netflix Subscription" = "netflix subscription" from
    by decide] at h
  exact h

/-- C10: when every description of an otherwise well-formed input
consists entirely of stop words, the vectorizer's vocabulary is empty
and fitting raises the generic sklearn `ValueError` (none of the spec's
error taxonomy exists in the code), the run fails, and no artifact is
written. -/
theorem C10_empty_vocabulary : ∀ (frame : RawFrame)
    (artifacts : String → Option Artifact) (savePath : String)
    (order : List Nat),
    frame.hasDescription = true → frame.hasCategory = true →
    (∀ r ∈ frame.rows, ∀ s, r.description = some s →
      ∀ t ∈ tokenize (lowerString s), t ∈ ENGLISH_STOP_WORDS) →
    runMain (some frame) artifacts savePath order =
      (artifacts, RunOutcome.failed PipelineError.valueError) := by
  intro frame artifacts savePath order hD hC hstop
  have hload : load_and_preprocess_data frame =
      Except.ok (cleanRows frame.rows) := by
    rw [load_and_preprocess_data, hD, hC]
    rfl
  have hfail : pipelineRun frame order = Except.error PipelineError.valueError := by
    rw [pipelineRun, hload]
    cases hsplit : train_test_split order (cleanRows frame.rows) with
    | error e =>
      have he := train_test_split_error hsplit
      subst he
      simp only [hsplit]
    | ok p =>
      obtain ⟨tr, te⟩ := p
      have hvocab : buildVocabulary (tr.map Row.description) = [] := by
        refine buildVocabulary_eq_nil ?_
        intro d hd
        obtain ⟨r, hr, hrd⟩ := List.mem_map.mp hd
        obtain ⟨raw, hraw, s, c, hs, _, hrow⟩ :=
          mem_cleanRows.mp (train_test_split_subset hsplit r hr)
        have : d = lowerString s := by rw [← hrd, hrow]
        rw [this]
        exact analyze_eq_nil (hstop raw hraw s hs)
      simp only [hsplit, vectorize_text, hvocab, if_pos rfl]
      rfl
  simp [runMain, hfail]

theorem C10_empty_vocabulary_witness :
    runMain (some ⟨true, true, [⟨some "The And", some "Misc"⟩]⟩)
        (fun _ => none) "transaction_model.pkl" [0] =
      ((fun _ => none), RunOutcome.failed PipelineError.valueError) :=
  C10_empty_vocabulary ⟨true, true, [⟨some "The And", some "Misc"⟩]⟩
    (fun _ => none) "transaction_model.pkl" [0] rfl rfl (by decide)

end TxCat
